import Mathlib

/-!
Verification of the portfolio analytics pipeline (data model, rating
resolution, sensitivity derivation, bucketing, aggregation) as a shallow
embedding in Lean 4.

Conventions of the embedding:
* a pandas scalar that may be missing (NaN) is an `Option` value
  (`none` = missing);
* machine floats are modelled as exact rationals `ℚ`; float arithmetic on
  missing values propagates `none` as NaN does, and a division whose
  denominator is zero (a non-finite float result) is modelled as missing;
* a DataFrame is a `List Row`; column-wise assignments become per-row
  record updates mapped over the list;
* trailing cosmetic `.round(2)` calls on the produced report tables are
  display rounding and are kept out of the numeric definitions.
-/

namespace Portfolio

/-- NaN-propagating addition on possibly-missing floats. -/
def oadd (a b : Option ℚ) : Option ℚ :=
  match a, b with
  | some x, some y => some (x + y)
  | _, _ => none

/-- NaN-propagating multiplication on possibly-missing floats. -/
def omul (a b : Option ℚ) : Option ℚ :=
  match a, b with
  | some x, some y => some (x * y)
  | _, _ => none

/-- NaN-propagating division; a zero denominator (a non-finite float
result) is modelled as missing. -/
def odiv (a b : Option ℚ) : Option ℚ :=
  match a, b with
  | some x, some y => if y = 0 then none else some (x / y)
  | _, _ => none

/-- NaN-propagating negation. -/
def oneg (a : Option ℚ) : Option ℚ :=
  match a with
  | some x => some (-x)
  | none => none

/-- `Series.fillna(c)` on a scalar. -/
def ofill (c : ℚ) (a : Option ℚ) : ℚ := a.getD c

/-- A Bloomberg field value (float or string). -/
inductive BBVal where
  | num (x : ℚ)
  | str (s : String)
  deriving Repr, DecidableEq

/-- One position row of the merged portfolio DataFrame.  Only the columns
read or written by the calculator/analyzer are represented. -/
structure Row where
  isin : String := ""
  longName : String := ""
  shortName : String := ""
  sector : String := ""
  industrySector : String := ""
  cntryRisk : String := ""
  eqtyTicker : String := ""
  securityType : String := ""
  issuer : String := ""
  sp : Option String := none
  hasSpLTColumn : Bool := false
  spLT : Option String := none
  rating : Option String := none
  spAjusted : String := ""
  ratingChiffre : Option ℚ := none
  creditCategory : String := ""
  marketValuePct : Option ℚ := none
  delta : Option ℚ := none
  premPct : Option ℚ := none
  sensiEquity : Option ℚ := none
  contribSensiEquity : ℚ := 0
  deltaPct : Option ℚ := none
  premiumPct : Option ℚ := none
  sensiEquityXcv : Option ℚ := none
  contribSensiEquityXcv : ℚ := 0
  modDurToWorst : Option ℚ := none
  contribModifiedDuration : Option ℚ := none
  effectiveDuration : Option ℚ := none
  contribEffectiveDuration : Option ℚ := none
  oad : Option ℚ := none
  interestSensitivity : Option ℚ := none
  contribTauxSensi : Option ℚ := none
  oac : Option ℚ := none
  creditSensitivity : Option ℚ := none
  contribCreditSensi : Option ℚ := none
  impliedSpread : Option ℚ := none
  contribImpliedSpread : Option ℚ := none
  impliedVolatility : Option ℚ := none
  yearsToMat : Option ℚ := none
  sensiBucket : Option String := none
  volBucket : Option String := none
  maturityBucket : Option String := none
  region : Option String := none
  style : Option String := none
  theme : Option String := none
  expectedReportDt : Option BBVal := none
  expectedReportTime : Option BBVal := none
  deriving Repr, DecidableEq

/-- The `sp_rating_to_number` table of `PortfolioCalculator.__init__`. -/
def sp_rating_to_number : List (String × ℚ) :=
  [("AAA", 1), ("AA+", 2), ("AA", 3), ("AA-", 4), ("A+", 5), ("A", 6),
   ("A-", 7), ("BBB+", 8), ("BBB", 9), ("BBB-", 10), ("BB+", 11),
   ("BB", 12), ("BB-", 13), ("B+", 14), ("B", 15), ("B-", 16),
   ("CCC+", 17), ("CCC", 18), ("CCC-", 19), ("CC", 20), ("C", 21),
   ("D", 22)]

/-- The `ig_ratings` list of `PortfolioCalculator.__init__`. -/
def ig_ratings : List String :=
  ["AAA", "AAA-", "AA+", "AA", "AA-", "A+", "A", "A-",
   "BBB+", "BBB", "BBB-"]

/-- The `delta_par_defaut` table of `PortfolioCalculator.__init__`. -/
def delta_par_defaut : List (String × ℚ) :=
  [("Common Stocks", 1), ("Corporate Bonds", 0), ("Currency Forwards", 0),
   ("Open-End Funds", 0), ("Warrants", 1), ("Cash", 0)]

/-- The `pays_vers_region` table of `PortfolioCalculator.__init__`. -/
def pays_vers_region : List (String × String) :=
  [("BE", "Europe"), ("CA", "America"), ("CN", "Asia Ex-Jap"),
   ("DE", "Europe"), ("ES", "Europe"), ("FR", "Europe"), ("GB", "Europe"),
   ("IT", "Europe"), ("KR", "Asia Ex-Jap"), ("LU", "Europe"),
   ("MX", "Others"), ("NL", "Europe"), ("NZ", "Asia Ex-Jap"),
   ("TW", "Asia Ex-Jap"), ("US", "America"), ("EU", "Europe"),
   ("HK", "Asia Ex-Jap"), ("JP", "Japan"), ("CH", "Europe")]

/-- The `Sector_vers_Style` table of `PortfolioCalculator.__init__`. -/
def sector_vers_style : List (String × String) :=
  [("Technology", "Growth"), ("HealthCare", "Growth"),
   ("Communications", "Growth"), ("Basic Materials", "Cyclical"),
   ("Industrial", "Cyclical"), ("Energy", "Cyclical"),
   ("Consumer, Cyclical", "Cyclical"), ("Financial", "Value"),
   ("Utilities", "Value"), ("Consumer, Non-cyclical", "Value")]

/-- Python `str.upper()` (ASCII case mapping). -/
def pyUpper (s : String) : String := ⟨s.data.map Char.toUpper⟩

/-- Python `str.strip()`: whitespace removed from both ends. -/
def pyStrip (s : String) : String :=
  ⟨((s.data.dropWhile Char.isWhitespace).reverse.dropWhile
      Char.isWhitespace).reverse⟩

/-- `PortfolioCalculator._is_valid_rating`: a rating value is valid iff it
is non-missing and its stripped upper-cased form is not a sentinel. -/
def is_valid_rating (val : Option String) : Bool :=
  match val with
  | none => false
  | some s => !(["", "NR", "#N/A", "NAN", "NONE"].contains (pyUpper (pyStrip s)))

/-- `str(val).strip()` on a non-missing cell. -/
def strippedVal (val : Option String) : String := pyStrip (val.getD "")

/-- `PortfolioCalculator._assign_rating_improved`: the priority cascade
S&P, then the S&P LT Foreign Currency column when the DataFrame has it,
then the internal rating, then the literal "NR". -/
def assign_rating_improved (r : Row) : String :=
  if is_valid_rating r.sp then strippedVal r.sp
  else if r.hasSpLTColumn && is_valid_rating r.spLT then strippedVal r.spLT
  else if is_valid_rating r.rating then strippedVal r.rating
  else "NR"

/-- `PortfolioCalculator._calculate_ratings`, restricted to one row: the
cascade assignment to column `S&P Ajusted`, the unconditional "CASH"
override for cash rows, the `Rating Chiffre` ordinal lookup and the
`Credit Category` classification. -/
def ratingsRow (r : Row) : Row :=
  let adj := if r.securityType = "Cash" then "CASH"
    else assign_rating_improved r
  { r with spAjusted := adj,
           ratingChiffre := sp_rating_to_number.lookup adj,
           creditCategory :=
             if r.securityType = "Cash" then "Cash"
             else if ig_ratings.contains adj then "Investment Grade"
             else if !(["NR", "D"].contains adj) then "High Yield"
             else "Not Rated" }

/-- Column-wise part of `PortfolioCalculator._calculate_ratings`. -/
def calculate_ratings (rows : List Row) : List Row := rows.map ratingsRow

/-- The security types kept by the fund-rating filter in
`_calculate_ratings` (`df_filtre`). -/
def bond_types : List String := ["Corporate Bonds", "Convertible Bonds"]

/-- `Contrib Rating Chiffre` of one filtered row:
`Rating Chiffre * Market Value (%) / 100` (NaN-propagating). -/
def contrib_rating_chiffre (r : Row) : Option ℚ :=
  odiv (omul r.ratingChiffre r.marketValuePct) (some 100)

/-- `rating_chiffre`: the pandas `.sum()` of `Contrib Rating Chiffre` over
the bond-type rows; a missing contribution is skipped (counts as 0). -/
def rating_chiffre_sum (rows : List Row) : ℚ :=
  (((rows.filter (fun r => bond_types.contains r.securityType)).map
    (fun r => ofill 0 (contrib_rating_chiffre r)))).sum

/-- The keys of `number_to_sp_rating` in insertion order 1, 2, ..., 22. -/
def ratingNumbers : List ℚ := sp_rating_to_number.map (fun p => p.2)

/-- The inverted table `number_to_sp_rating` of `_calculate_ratings`. -/
def number_to_sp_rating : List (ℚ × String) :=
  sp_rating_to_number.map (fun p => (p.2, p.1))

/-- Python `min(l, key=f)` as a left fold: the accumulator is replaced
only on a strictly smaller key, so the earliest minimiser wins. -/
def pymin (f : ℚ → ℚ) (init : ℚ) (l : List ℚ) : ℚ :=
  l.foldl (fun acc j => if f j < f acc then j else acc) init

/-- Python `min(keys, key=lambda x: abs(x - r))` over the ordinal keys. -/
def closest_number (x : ℚ) : ℚ :=
  match ratingNumbers with
  | [] => 0
  | k :: ks => pymin (fun j => |j - x|) k ks

/-- `self.rating_final`: the snapped fund-level letter grade. -/
def rating_final (rows : List Row) : String :=
  ((number_to_sp_rating.find? (fun p => decide (p.1 = closest_number (rating_chiffre_sum rows)))).map
    (fun p => p.2)).getD ""

/-- `PortfolioCalculator._calculate_sensitivities`, restricted to one row.
The delta default uses `dict.get(security_type, row_delta)`: a missing
delta of an unregistered security type stays missing. -/
def sensitivitiesRow (r : Row) : Row :=
  let delta2 := match r.delta with
    | some v => some v
    | none => delta_par_defaut.lookup r.securityType
  let sensiEquity2 := odiv delta2 (oadd (some 1) (odiv r.premPct (some 100)))
  let contrib2 := ofill 0 sensiEquity2 * ofill 0 r.marketValuePct
  let deltaPct2 := match r.deltaPct with
    | some v => some v
    | none => delta_par_defaut.lookup r.securityType
  let sensiXcv2 := odiv deltaPct2 (oadd (some 1) (odiv r.premiumPct (some 100)))
  let contribXcv2 := ofill 0 sensiXcv2 * ofill 0 r.marketValuePct
  let contribModDur2 := odiv (omul r.modDurToWorst r.marketValuePct) (some 100)
  let effDur2 := if r.securityType ≠ "Convertible Bonds" then r.modDurToWorst
    else r.effectiveDuration
  let contribEffDur2 := odiv (omul effDur2 r.marketValuePct) (some 100)
  let intSensi2 := if r.securityType ≠ "Convertible Bonds" then oneg r.oad
    else r.interestSensitivity
  let contribTaux2 := odiv (omul intSensi2 r.marketValuePct) (some 100)
  let credSensi2 := if r.securityType ≠ "Convertible Bonds" then oneg r.oac
    else r.creditSensitivity
  let contribCred2 := odiv (omul credSensi2 r.marketValuePct) (some 100)
  let contribSpread2 := odiv (omul r.impliedSpread r.marketValuePct) (some 100)
  { r with delta := delta2, sensiEquity := sensiEquity2,
           contribSensiEquity := contrib2, deltaPct := deltaPct2,
           sensiEquityXcv := sensiXcv2, contribSensiEquityXcv := contribXcv2,
           contribModifiedDuration := contribModDur2,
           effectiveDuration := effDur2,
           contribEffectiveDuration := contribEffDur2,
           interestSensitivity := intSensi2, contribTauxSensi := contribTaux2,
           creditSensitivity := credSensi2, contribCreditSensi := contribCred2,
           contribImpliedSpread := contribSpread2 }

def calculate_sensitivities (rows : List Row) : List Row :=
  rows.map sensitivitiesRow

/-- `pd.cut(x, [0, 0.25, 0.50, 0.75, 1.1], include_lowest=True)` on a
non-missing value: right-closed intervals, the lowest left-closed; a value
outside `[0, 1.1]` falls in no interval (NaN). -/
def sensiBucketOf (x : ℚ) : Option String :=
  if x < 0 then none
  else if x ≤ 1/4 then some "Bucket 0-25"
  else if x ≤ 1/2 then some "Bucket 25-50"
  else if x ≤ 3/4 then some "Bucket 50-75"
  else if x ≤ 11/10 then some "Bucket 75-100"
  else none

/-- `pd.cut(x, [-inf, 20, 30, 40, inf], right=False)` on a non-missing
value: left-closed right-open intervals. -/
def volBucketOf (x : ℚ) : Option String :=
  if x < 20 then some "<20%"
  else if x < 30 then some "20-30%"
  else if x < 40 then some "30-40%"
  else some ">40%"

/-- `pd.cut(x, [-inf, 1, 3, 5, inf], right=False)` on a non-missing
value: left-closed right-open intervals. -/
def matBucketOf (x : ℚ) : Option String :=
  if x < 1 then some "<1 An"
  else if x < 3 then some "1 à 3 Ans"
  else if x < 5 then some "3 à 5 Ans"
  else some ">5 Ans"

/-- `PortfolioCalculator._calculate_buckets`, restricted to one row; a
missing input value yields a missing bucket. -/
def bucketsRow (r : Row) : Row :=
  let r := { r with sensiBucket := r.sensiEquity.bind sensiBucketOf }
  let r := { r with volBucket := r.impliedVolatility.bind volBucketOf }
  { r with maturityBucket := r.yearsToMat.bind matBucketOf }

def calculate_buckets (rows : List Row) : List Row := rows.map bucketsRow

/-- `PortfolioCalculator._apply_manual_corrections`, restricted to one
row. -/
def manualCorrectionsRow (r : Row) : Row :=
  let r := if r.isin = "US06744EDH71"
    then { r with shortName := "MICROSOFT", sector := "Technology",
                  cntryRisk := "US" }
    else r
  let r := if r.isin = "US06744EDH71" then { r with eqtyTicker := "MSFT US" }
    else r
  let r := if r.isin = "US29446YAC03" then { r with eqtyTicker := "EQX US" }
    else r
  if ["FR001400R1R6", "FR001400M9F9"].contains r.isin
    then { r with cntryRisk := "FR" } else r

def apply_manual_corrections (rows : List Row) : List Row :=
  rows.map manualCorrectionsRow

/-- `PortfolioCalculator._calculate_regions`, restricted to one row. -/
def regionsRow (r : Row) : Row :=
  { r with region := pays_vers_region.lookup r.cntryRisk }

def calculate_regions (rows : List Row) : List Row := rows.map regionsRow

/-- `PortfolioCalculator._calculate_asset` computes a local aggregate and
returns the DataFrame unchanged. -/
def calculate_asset (rows : List Row) : List Row := rows

/-- `PortfolioCalculator._calculate_style`, restricted to one row. -/
def styleRow (r : Row) : Row :=
  { r with style := sector_vers_style.lookup r.industrySector }

def calculate_style (rows : List Row) : List Row := rows.map styleRow

/-- `PortfolioCalculator._calculate_maturity_buckets`, restricted to one
row: cash rows get a near-zero maturity, then the maturity bucket is
recomputed. -/
def maturityBucketsRow (r : Row) : Row :=
  let r := { r with yearsToMat :=
    if r.securityType = "Cash" then some (3/1000) else r.yearsToMat }
  { r with maturityBucket := r.yearsToMat.bind matBucketOf }

def calculate_maturity_buckets (rows : List Row) : List Row :=
  rows.map maturityBucketsRow

/-- The transformation sequence of `calculate_all_metrics` applied to the
working table. -/
def metricsPipeline (rows : List Row) : List Row :=
  calculate_maturity_buckets (calculate_style (calculate_asset
    (calculate_regions (calculate_buckets (calculate_sensitivities
      (calculate_ratings (apply_manual_corrections rows)))))))

/-!  A small reference/heap model for the frame-effect claim: Python
DataFrames are heap objects passed by reference; `df.copy()` allocates a
fresh object, in-place column assignment mutates the referenced object. -/

/-- The heap: a store of DataFrames addressed by allocation index. -/
structure Heap where
  tables : List (List Row)

def Heap.get (h : Heap) (i : Nat) : List Row := h.tables.getD i []

/-- Allocate a fresh DataFrame, returning its reference. -/
def Heap.alloc (h : Heap) (t : List Row) : Heap × Nat :=
  ({ tables := h.tables ++ [t] }, h.tables.length)

/-- In-place mutation of the DataFrame a reference points to. -/
def Heap.write (h : Heap) (i : Nat) (t : List Row) : Heap :=
  { tables := h.tables.set i t }

/-- `df.copy()` duplicates the values. -/
def copyTable (t : List Row) : List Row := t

/-- One statement `df = self._helper(df)` of `calculate_all_metrics`:
the helper transforms the referenced DataFrame in place and returns the
same reference. -/
def writeStep (f : List Row → List Row) (p : Heap × Nat) : Heap × Nat :=
  (p.1.write p.2 (f (p.1.get p.2)), p.2)

/-- The helper sequence of `calculate_all_metrics`, in program order. -/
def metricsSteps : List (List Row → List Row) :=
  [apply_manual_corrections, calculate_ratings, calculate_sensitivities,
   calculate_buckets, calculate_regions, calculate_asset, calculate_style,
   calculate_maturity_buckets]

/-- `PortfolioCalculator.calculate_all_metrics` over the heap model: the
argument reference is copied once (`df = df.copy()`), then every helper
mutates the copy in place. -/
def calculate_all_metrics (h : Heap) (df : Nat) : Heap × Nat :=
  metricsSteps.foldl (fun q f => writeStep f q)
    (h.alloc (copyTable (h.get df)))

/-!  Analyzer report tables (`portfolio_analyzer.py`). -/

/-- One row of a top-N report table (`Long Name`, `Short Name`, value). -/
structure HoldingRow where
  longName : String
  shortName : String
  value : ℚ
  deriving Repr, DecidableEq

/-- Stable descending insertion by key: an element is inserted after every
earlier element of greater-or-equal key (`nlargest` keeps first on ties). -/
def insertDescBy (key : α → ℚ) (x : α) : List α → List α
  | [] => [x]
  | y :: ys => if key y < key x then x :: y :: ys else y :: insertDescBy key x ys

/-- Stable descending sort by key. -/
def sortDescBy (key : α → ℚ) : List α → List α
  | [] => []
  | x :: xs => insertDescBy key x (sortDescBy key xs)

/-- `DataFrame.nlargest(n, column)`: the first `n` rows of the stable
descending order (rows with a missing key are filtered out by the
callers below, as `nlargest` drops NaN). -/
def nlargestBy (n : Nat) (key : α → ℚ) (l : List α) : List α :=
  (sortDescBy key l).take n

/-- The security-type filter of `_get_top_holdings`. -/
def top_types : List String :=
  ["Convertible Bonds", "Corporate Bonds", "Open-End Funds",
   "Warrants", "Common Stocks"]

/-- The `df_filtered` pool `_get_top_holdings` selects from (the
`isSome` conjunct models `nlargest` dropping NaN keys). -/
def holdings_pool (rows : List Row) : List Row :=
  rows.filter
    (fun r => top_types.contains r.securityType && r.marketValuePct.isSome)

/-- The `top_10` selection of `_get_top_holdings`. -/
def top_holdings_selection (n : Nat) (rows : List Row) : List Row :=
  nlargestBy n (fun r => r.marketValuePct.getD 0) (holdings_pool rows)

/-- The `top_10` selection of `_get_top_contributors`. -/
def top_contributors_selection (n : Nat) (rows : List Row) : List Row :=
  nlargestBy n (fun r => r.contribSensiEquity) rows

/-- `PortfolioAnalyzer._get_top_holdings`: top `n` rows by
`Market Value (%)` plus an appended TOTAL row summing the selected rows
(the cosmetic trailing `.round(2)` is omitted). -/
def get_top_holdings (n : Nat) (rows : List Row) : List HoldingRow :=
  let sel := (top_holdings_selection n rows).map
    (fun r => ⟨r.longName, r.shortName, r.marketValuePct.getD 0⟩)
  sel ++ [⟨"TOTAL", "", (sel.map (fun x => x.value)).sum⟩]

/-- `PortfolioAnalyzer._get_top_contributors`: top `n` rows by
`CONTRIB SENSI EQUITY` plus an appended TOTAL row summing the selected
rows. -/
def get_top_contributors (n : Nat) (rows : List Row) : List HoldingRow :=
  let sel := (top_contributors_selection n rows).map
    (fun r => ⟨r.longName, r.shortName, r.contribSensiEquity⟩)
  sel ++ [⟨"TOTAL", "", (sel.map (fun x => x.value)).sum⟩]

/-- The distinct non-missing group keys of a table (pandas `groupby`
drops rows whose key is NaN). -/
def groupKeys (key : Row → Option String) (rows : List Row) : List String :=
  (rows.filterMap key).dedup

/-- `df.groupby(key)[val].sum()`: one entry per distinct non-missing key,
holding the sum of `val` over the rows carrying that key. -/
def groupbySum (key : Row → Option String) (val : Row → ℚ)
    (rows : List Row) : List (String × ℚ) :=
  (groupKeys key rows).map
    (fun k => (k, ((rows.filter (fun r => decide (key r = some k))).map
      val).sum))

/-- `PortfolioAnalyzer._aggregate_by_region` (display rounding omitted):
group by `REGION`, sum `CONTRIB SENSI EQUITY`, sort descending. -/
def aggregate_by_region (rows : List Row) : List (String × ℚ) :=
  sortDescBy (fun p => p.2)
    (groupbySum (fun r => r.region) (fun r => r.contribSensiEquity) rows)

/-!  Bloomberg reference-data model (`api_bloomberg.py`,
`data_loader.py`).  The external service's behaviour is abstracted as an
`Except`: either the batch request raises, or it yields per-security
field data.  `fetch_batch_data` wraps the request in a catch-all handler
that logs and returns the empty mapping. -/

/-- Per-security field data as parsed from the response events. -/
abbrev BBFieldData := List (String × Option BBVal)

/-- The outcome of the batch request: an exception or parsed data. -/
abbrev BBResponse := Except String (List (String × BBFieldData))

/-- The `{ticker: {field: value}}` mapping `fetch_batch_data` returns. -/
abbrev BBResults := List (String × List (String × Option BBVal))

/-- `BloombergDataFetcher.fetch_batch_data`: empty when the service is
down or no tickers are given; on an exception the handler returns the
empty mapping; otherwise each requested field is looked up per security
(missing fields become `None`). -/
def fetch_batch_data (serviceUp : Bool) (tickers : List String)
    (fields : List String) (response : BBResponse) : BBResults :=
  if !serviceUp || tickers.isEmpty then []
  else
    match response with
    | .error _ => []
    | .ok secs =>
        secs.map (fun p =>
          (p.1, fields.map (fun f => (f, (p.2.lookup f).join))))

/-- The two reference fields requested by the loader. -/
def report_fields : List String :=
  ["EXPECTED_REPORT_DT", "EXPECTED_REPORT_TIME"]

/-- `DataLoader._enrich_with_bloomberg_data` (the trailing EARNING
display-string column is omitted): convertible rows get " Equity"
appended to their ticker, the unique non-placeholder tickers are fetched
in one batch, and each row receives the looked-up report fields (missing
tickers yield `None`). -/
def enrich_with_bloomberg_data (rows : List Row) (serviceUp : Bool)
    (response : BBResponse) : List Row :=
  let rows := rows.map (fun r =>
    if r.securityType = "Convertible Bonds"
    then { r with eqtyTicker := r.eqtyTicker ++ " Equity" } else r)
  let tickers :=
    ((rows.map (fun r => r.eqtyTicker)).filter
      (fun t => t ≠ "nan Equity")).dedup
  if tickers.isEmpty then rows
  else
    let data := fetch_batch_data serviceUp tickers report_fields response
    rows.map (fun r =>
      match data.lookup r.eqtyTicker with
      | some fs =>
          { r with expectedReportDt := (fs.lookup "EXPECTED_REPORT_DT").join,
                   expectedReportTime := (fs.lookup "EXPECTED_REPORT_TIME").join }
      | none => { r with expectedReportDt := none,
                         expectedReportTime := none })

/-!  Claim-side (specification) definitions, written from the words of the
spec for comparison with the code-side definitions above. -/

/-- Claim side of C1: the first valid value of the priority cascade
(primary S&P, then the S&P LT Foreign Currency field, then the internal
rating), `none` when no field is valid. -/
def claimed_first_valid (r : Row) : Option String :=
  if is_valid_rating r.sp then r.sp
  else if r.hasSpLTColumn && is_valid_rating r.spLT then r.spLT
  else if is_valid_rating r.rating then r.rating
  else none

/-- Claim side of C1 as stated: the resolved rating is the first valid
value itself (with the "NR" fallback and the Cash override). -/
def claimed_resolved_rating (r : Row) : String :=
  if r.securityType = "Cash" then "CASH"
  else (claimed_first_valid r).getD "NR"

/-- Claim side of C4: the fixed per-security-type delta defaults. -/
def claimed_delta_default (t : String) : Option ℚ :=
  if t = "Common Stocks" ∨ t = "Warrants" then some 1
  else if t = "Corporate Bonds" ∨ t = "Currency Forwards" ∨
          t = "Open-End Funds" ∨ t = "Cash" then some 0
  else none

/-- The letter grades AAA … D (the keys of the ordinal table). -/
def letter_grades : List String := sp_rating_to_number.map (fun p => p.1)

/-!  Concrete fixture rows and tables used by counterexamples and
witnesses. -/

/-- A non-cash row whose primary rating has surrounding whitespace. -/
def rowC1 : Row := { sp := some " BBB ", securityType := "Corporate Bonds" }

/-- A non-cash row whose primary rating is an arbitrary unrecognized
string. -/
def rowC7 : Row := { sp := some "ZZZZ", securityType := "Corporate Bonds" }

/-- A non-cash row whose resolved rating is neither investment grade nor
"NR" nor "D". -/
def rowC9 : Row := { sp := some "ZZ", securityType := "Corporate Bonds" }

/-- First row of the rollup scenario: a bond weighted 40 rated "A". -/
def rawC3a : Row :=
  { securityType := "Corporate Bonds", sp := some "A",
    marketValuePct := some 40 }

/-- Second row of the rollup scenario: a bond weighted 35 rated "BBB". -/
def rawC3b : Row :=
  { securityType := "Corporate Bonds", sp := some "BBB",
    marketValuePct := some 35 }

/-- Third row of the rollup scenario: a bond weighted 25 rated "B". -/
def rawC3c : Row :=
  { securityType := "Corporate Bonds", sp := some "B",
    marketValuePct := some 25 }

/-- The three-row scenario of the fund-rating rollup claim: bond rows
weighted 40/35/25 rated A/BBB/B, after the ratings step. -/
def rowsC3 : List Row := calculate_ratings [rawC3a, rawC3b, rawC3c]

/-- First holdings fixture row (market value 5). -/
def rowC5a : Row :=
  { longName := "a", securityType := "Common Stocks",
    marketValuePct := some 5, contribSensiEquity := 5 }

/-- Second holdings fixture row (market value 3). -/
def rowC5b : Row :=
  { longName := "b", securityType := "Common Stocks",
    marketValuePct := some 3, contribSensiEquity := 3 }

/-- Third holdings fixture row (market value 2). -/
def rowC5c : Row :=
  { longName := "c", securityType := "Common Stocks",
    marketValuePct := some 2, contribSensiEquity := 2 }

/-- Three holdings rows for the top-N table instance. -/
def rowsC5 : List Row := [rowC5a, rowC5b, rowC5c]

/-- A row with a mapped country code. -/
def rowC6a : Row := { cntryRisk := "FR", contribSensiEquity := 1 }

/-- A row with an unmapped country code. -/
def rowC6b : Row := { cntryRisk := "XX", contribSensiEquity := 1 }

/-- Two rows, one with a mapped country and one unmapped, after the
region step. -/
def rowsC6 : List Row := calculate_regions [rowC6a, rowC6b]

/-- A convertible row whose ticker will be fetched. -/
def rowC8 : Row :=
  { securityType := "Convertible Bonds", eqtyTicker := "AAPL US" }

/-- A row with a missing delta and a security type that has no registered
delta default. -/
def rowC4 : Row := { securityType := "Interest Rate Swaps" }

/-- A row with a missing delta and security type "Common Stocks". -/
def rowC4b : Row :=
  { securityType := "Common Stocks", marketValuePct := some 2 }

/-- A one-table heap for the frame-effect witness. -/
def heapC10 : Heap := { tables := [[rowC1]] }

/-- A row whose equity sensitivity sits exactly on the 0.25 boundary. -/
def rowC2a : Row := { sensiEquity := some (1/4) }

/-- A row whose equity sensitivity lies above 1.1. -/
def rowC2b : Row := { sensiEquity := some (3/2) }

/-!  Helper lemmas. -/

/-- On a valid value, the claim-side trimmed cascade result coincides with
`str(val).strip()`. -/
lemma strip_map_of_valid {v : Option String}
    (h : is_valid_rating v = true) :
    ((v.map pyStrip).getD "NR") = strippedVal v := by
  cases v with
  | none => simp [is_valid_rating] at h
  | some s => rfl

lemma ratingsRow_securityType (r : Row) :
    (ratingsRow r).securityType = r.securityType := rfl

lemma ratingsRow_spAjusted (r : Row) :
    (ratingsRow r).spAjusted =
      if r.securityType = "Cash" then "CASH"
      else assign_rating_improved r := rfl

lemma ratingsRow_creditCategory (r : Row) :
    (ratingsRow r).creditCategory =
      if r.securityType = "Cash" then "Cash"
      else if ig_ratings.contains (ratingsRow r).spAjusted then
        "Investment Grade"
      else if !(["NR", "D"].contains (ratingsRow r).spAjusted) then
        "High Yield"
      else "Not Rated" := rfl

/-- A valid rating value has a non-empty trimmed form. -/
lemma trim_ne_of_valid {s : String} (h : is_valid_rating (some s) = true) :
    pyStrip s ≠ "" := by
  intro he
  have h2 : (!(["", "NR", "#N/A", "NAN", "NONE"].contains
      (pyUpper (pyStrip s)))) = true := h
  rw [he] at h2
  exact absurd h2 (by decide)

/-- C1, counterexample: the claim says the resolved rating equals the
first valid value of the cascade itself; on a primary rating with
surrounding whitespace the code resolves to the stripped value, which
differs from the first valid value. -/
theorem C1_counterexample :
    (ratingsRow rowC1).spAjusted = "BBB" ∧
    claimed_resolved_rating rowC1 = " BBB " ∧
    (ratingsRow rowC1).spAjusted ≠ claimed_resolved_rating rowC1 := by
  refine ⟨by decide, by decide, by decide⟩

/-- C1 (amended): for every row, the resolved rating `S&P Ajusted` is the
whitespace-stripped form of the first valid value of the priority cascade
(primary S&P, then the S&P LT Foreign Currency field when the column is
present, then the internal rating), the literal "NR" when no field is
valid, and rows whose security type is "Cash" are overridden to "CASH"
after the cascade; a value is valid iff it is non-missing and its
stripped upper-cased form is not in the sentinel set. -/
theorem C1_rating_cascade (r : Row) :
    (ratingsRow r).spAjusted =
      if r.securityType = "Cash" then "CASH"
      else ((claimed_first_valid r).map pyStrip).getD "NR" := by
  rw [ratingsRow_spAjusted]
  by_cases hc : r.securityType = "Cash"
  · simp [hc]
  · simp only [hc, if_false]
    unfold assign_rating_improved claimed_first_valid
    split_ifs with h1 h2 h3
    · exact (strip_map_of_valid h1).symm
    · exact (strip_map_of_valid (Bool.and_elim_right h2)).symm
    · exact (strip_map_of_valid h3).symm
    · rfl

/-- C7, counterexample: an arbitrary unrecognized string in the primary
rating field passes the validity test and becomes the resolved rating,
which is neither a letter grade nor "NR" nor "CASH". -/
theorem C7_counterexample :
    (ratingsRow rowC7).spAjusted = "ZZZZ" ∧
    letter_grades.contains "ZZZZ" = false ∧
    ("ZZZZ" : String) ≠ "NR" ∧ ("ZZZZ" : String) ≠ "CASH" := by
  refine ⟨by decide, by decide, by decide, by decide⟩

/-- C7 (amended): for every row the resolved rating is never empty: it is
"CASH", or "NR", or the non-empty stripped form of one of the row's three
rating fields — but it is not constrained to the letter grades. -/
theorem C7_codomain (r : Row) :
    (ratingsRow r).spAjusted ≠ "" ∧
    ((ratingsRow r).spAjusted = "CASH" ∨ (ratingsRow r).spAjusted = "NR" ∨
      (∃ s, (r.sp = some s ∨ r.spLT = some s ∨ r.rating = some s) ∧
        (ratingsRow r).spAjusted = pyStrip s)) := by
  rw [ratingsRow_spAjusted]
  by_cases hc : r.securityType = "Cash"
  · exact ⟨by simp [hc], by simp [hc]⟩
  · simp only [hc, if_false]
    unfold assign_rating_improved
    split_ifs with h1 h2 h3
    · cases hsp : r.sp with
      | none => rw [hsp] at h1; simp [is_valid_rating] at h1
      | some s =>
          rw [hsp] at h1
          refine ⟨by simpa [strippedVal, hsp] using trim_ne_of_valid h1, ?_⟩
          exact Or.inr (Or.inr ⟨s, Or.inl rfl, by simp [strippedVal, hsp]⟩)
    · have h2v := Bool.and_elim_right h2
      cases hsp : r.spLT with
      | none => rw [hsp] at h2v; simp [is_valid_rating] at h2v
      | some s =>
          rw [hsp] at h2v
          refine ⟨by simpa [strippedVal, hsp] using trim_ne_of_valid h2v, ?_⟩
          exact Or.inr (Or.inr ⟨s, Or.inr (Or.inl rfl),
            by simp [strippedVal, hsp]⟩)
    · cases hsp : r.rating with
      | none => rw [hsp] at h3; simp [is_valid_rating] at h3
      | some s =>
          rw [hsp] at h3
          refine ⟨by simpa [strippedVal, hsp] using trim_ne_of_valid h3, ?_⟩
          exact Or.inr (Or.inr ⟨s, Or.inr (Or.inr rfl),
            by simp [strippedVal, hsp]⟩)
    · exact ⟨by decide, Or.inr (Or.inl rfl)⟩

/-- C9: the credit category is one of the four labels; security type
"Cash" forces "Cash"; a resolved rating of "D" yields "Not Rated"; and
any resolved rating outside the investment-grade list and outside
{"NR", "D"} on a non-cash row yields "High Yield". -/
theorem C9_credit_category (r : Row) :
    ((ratingsRow r).creditCategory ∈
      (["Cash", "Investment Grade", "High Yield", "Not Rated"] :
        List String)) ∧
    (r.securityType = "Cash" → (ratingsRow r).creditCategory = "Cash") ∧
    ((ratingsRow r).spAjusted = "D" →
      (ratingsRow r).creditCategory = "Not Rated") ∧
    (r.securityType ≠ "Cash" →
      ig_ratings.contains (ratingsRow r).spAjusted = false →
      (ratingsRow r).spAjusted ≠ "NR" → (ratingsRow r).spAjusted ≠ "D" →
      (ratingsRow r).creditCategory = "High Yield") := by
  rw [ratingsRow_creditCategory]
  by_cases hc : r.securityType = "Cash"
  · have hadj : (ratingsRow r).spAjusted = "CASH" := by
      rw [ratingsRow_spAjusted, if_pos hc]
    refine ⟨by simp [hc], fun _ => by simp [hc], ?_, fun hnc => absurd hc hnc⟩
    intro hD
    rw [hadj] at hD
    exact absurd hD (by decide)
  · simp only [hc, if_false]
    constructor
    · split_ifs <;> simp
    refine ⟨fun h => h.elim, ?_, ?_⟩
    · intro hD
      rw [hD]
      simp [ig_ratings]
    · intro _ hig hnr hd
      have hig2 : (ratingsRow r).spAjusted ∉ ig_ratings := by simpa using hig
      simp [List.contains_cons, hig2, hnr, hd]

/-- C9, witness: a concrete non-cash row with an unrecognized resolved
rating is classified "High Yield". -/
theorem C9_witness : (ratingsRow rowC9).creditCategory = "High Yield" :=
  (C9_credit_category rowC9).2.2.2 (by decide) (by decide) (by decide)
    (by decide)

/-- The code-side delta-default table agrees pointwise with the
per-security-type defaults stated by the claim. -/
lemma delta_lookup_eq_claimed (t : String) :
    delta_par_defaut.lookup t = claimed_delta_default t := by
  unfold delta_par_defaut claimed_delta_default
  by_cases h1 : t = "Common Stocks"
  · subst h1; rfl
  by_cases h2 : t = "Corporate Bonds"
  · subst h2; rfl
  by_cases h3 : t = "Currency Forwards"
  · subst h3; rfl
  by_cases h4 : t = "Open-End Funds"
  · subst h4; rfl
  by_cases h5 : t = "Warrants"
  · subst h5; rfl
  by_cases h6 : t = "Cash"
  · subst h6; rfl
  · have g1 : (t == "Common Stocks") = false := beq_eq_false_iff_ne.mpr h1
    have g2 : (t == "Corporate Bonds") = false := beq_eq_false_iff_ne.mpr h2
    have g3 : (t == "Currency Forwards") = false := beq_eq_false_iff_ne.mpr h3
    have g4 : (t == "Open-End Funds") = false := beq_eq_false_iff_ne.mpr h4
    have g5 : (t == "Warrants") = false := beq_eq_false_iff_ne.mpr h5
    have g6 : (t == "Cash") = false := beq_eq_false_iff_ne.mpr h6
    simp [List.lookup, g1, g2, g3, g4, g5, g6, h1, h2, h3, h4, h5, h6]

lemma sensitivitiesRow_delta (r : Row) :
    (sensitivitiesRow r).delta =
      (match r.delta with
       | some d => some d
       | none => claimed_delta_default r.securityType) := by
  cases hd : r.delta with
  | some v => simp [sensitivitiesRow, hd]
  | none => simp [sensitivitiesRow, hd, delta_lookup_eq_claimed]

/-- C4: equity sensitivity is delta over (1 + premium/100), the
contribution is the zero-filled sensitivity times the zero-filled market
value, a missing delta is first replaced by the per-security-type default
(1 for Common Stocks and Warrants, 0 for Corporate Bonds, Currency
Forwards, Open-End Funds and Cash), and with no registered default a
missing delta stays missing and the contribution is 0. -/
theorem C4_sensitivities (r : Row) :
    ((sensitivitiesRow r).delta =
      (match r.delta with
       | some d => some d
       | none => claimed_delta_default r.securityType)) ∧
    ((sensitivitiesRow r).sensiEquity =
      odiv (sensitivitiesRow r).delta
        (oadd (some 1) (odiv r.premPct (some 100)))) ∧
    ((sensitivitiesRow r).contribSensiEquity =
      ofill 0 (sensitivitiesRow r).sensiEquity * ofill 0 r.marketValuePct) ∧
    (r.delta = none → claimed_delta_default r.securityType = none →
      (sensitivitiesRow r).delta = none ∧
      (sensitivitiesRow r).contribSensiEquity = 0) := by
  refine ⟨sensitivitiesRow_delta r, rfl, rfl, ?_⟩
  intro h1 h2
  have hdelta : (sensitivitiesRow r).delta = none := by
    rw [sensitivitiesRow_delta r, h1, h2]
  have hsensi : (sensitivitiesRow r).sensiEquity = none := by
    have he : (sensitivitiesRow r).sensiEquity =
        odiv (sensitivitiesRow r).delta
          (oadd (some 1) (odiv r.premPct (some 100))) := rfl
    rw [he, hdelta]
    rfl
  have hcontrib : (sensitivitiesRow r).contribSensiEquity =
      ofill 0 (sensitivitiesRow r).sensiEquity *
        ofill 0 r.marketValuePct := rfl
  rw [hcontrib, hsensi] at *
  exact ⟨hdelta, by simp [ofill]⟩

/-- C4, witness: a missing delta with an unregistered security type stays
missing and contributes zero. -/
theorem C4_witness :
    (sensitivitiesRow rowC4).delta = none ∧
    (sensitivitiesRow rowC4).contribSensiEquity = 0 :=
  (C4_sensitivities rowC4).2.2.2 rfl (by decide)

/-- C2, counterexample: an equity sensitivity of exactly 0.25 lands in
the lower bucket "Bucket 0-25" (the claim says the higher bucket), and a
sensitivity of 1.5 receives no label at all (the claim says the partition
is total). -/
theorem C2_counterexample :
    (bucketsRow rowC2a).sensiBucket = some "Bucket 0-25" ∧
    (bucketsRow rowC2a).sensiBucket ≠ some "Bucket 25-50" ∧
    (bucketsRow rowC2b).sensiBucket = none := by
  refine ⟨?_, ?_, ?_⟩ <;>
    norm_num [bucketsRow, rowC2a, rowC2b, sensiBucketOf] <;> decide

/-- C2 (amended): the volatility and maturity bucket dimensions are total
partitions into four half-open right-open intervals (a boundary value
lands in the higher bucket: volatility 20 is "20-30%", maturity 1 is
"1 à 3 Ans"); the equity-sensitivity dimension instead uses left-open
right-closed intervals [0,0.25], (0.25,0.5], (0.5,0.75], (0.75,1.1] — a
boundary value lands in the lower bucket — and values outside [0,1.1]
receive no label. -/
theorem C2_buckets (x : ℚ) :
    ((volBucketOf x).isSome = true) ∧ ((matBucketOf x).isSome = true) ∧
    (volBucketOf x = some "<20%" ↔ x < 20) ∧
    (volBucketOf x = some "20-30%" ↔ 20 ≤ x ∧ x < 30) ∧
    (volBucketOf x = some "30-40%" ↔ 30 ≤ x ∧ x < 40) ∧
    (volBucketOf x = some ">40%" ↔ 40 ≤ x) ∧
    (matBucketOf x = some "<1 An" ↔ x < 1) ∧
    (matBucketOf x = some "1 à 3 Ans" ↔ 1 ≤ x ∧ x < 3) ∧
    (matBucketOf x = some "3 à 5 Ans" ↔ 3 ≤ x ∧ x < 5) ∧
    (matBucketOf x = some ">5 Ans" ↔ 5 ≤ x) ∧
    (sensiBucketOf x = some "Bucket 0-25" ↔ 0 ≤ x ∧ x ≤ 1/4) ∧
    (sensiBucketOf x = some "Bucket 25-50" ↔ 1/4 < x ∧ x ≤ 1/2) ∧
    (sensiBucketOf x = some "Bucket 50-75" ↔ 1/2 < x ∧ x ≤ 3/4) ∧
    (sensiBucketOf x = some "Bucket 75-100" ↔ 3/4 < x ∧ x ≤ 11/10) ∧
    (sensiBucketOf x = none ↔ x < 0 ∨ 11/10 < x) := by
  unfold volBucketOf matBucketOf sensiBucketOf
  refine ⟨?_, ?_, ?_, ?_, ?_, ?_, ?_, ?_, ?_, ?_, ?_, ?_, ?_, ?_, ?_⟩ <;>
    (split_ifs <;> simp_all <;>
      first
        | linarith
        | (constructor <;> linarith)
        | (rintro ⟨h, h2⟩; linarith)
        | (intros; linarith))

lemma ratingsRow_ratingChiffre (r : Row) :
    (ratingsRow r).ratingChiffre =
      sp_rating_to_number.lookup (ratingsRow r).spAjusted := rfl

/-- The Python `min` fold returns an element of the candidates and
minimises the key. -/
lemma pymin_le (f : ℚ → ℚ) : ∀ (l : List ℚ) (init : ℚ),
    (pymin f init l = init ∨ pymin f init l ∈ l) ∧
    f (pymin f init l) ≤ f init ∧ ∀ j ∈ l, f (pymin f init l) ≤ f j := by
  intro l
  induction l with
  | nil => exact fun init => ⟨Or.inl rfl, le_refl _, by simp⟩
  | cons a as ih =>
      intro init
      have hstep : pymin f init (a :: as) =
          pymin f (if f a < f init then a else init) as := rfl
      by_cases h : f a < f init
      · rw [hstep, if_pos h]
        obtain ⟨hmem, hle, hall⟩ := ih a
        refine ⟨?_, le_trans hle (le_of_lt h), ?_⟩
        · rcases hmem with h1 | h1
          · exact Or.inr (by simp [h1])
          · exact Or.inr (List.mem_cons_of_mem _ h1)
        · intro j hj
          rcases List.mem_cons.mp hj with rfl | hj2
          · exact hle
          · exact hall j hj2
      · rw [hstep, if_neg h]
        obtain ⟨hmem, hle, hall⟩ := ih init
        refine ⟨?_, hle, ?_⟩
        · rcases hmem with h1 | h1
          · exact Or.inl h1
          · exact Or.inr (List.mem_cons_of_mem _ h1)
        · intro j hj
          rcases List.mem_cons.mp hj with rfl | hj2
          · exact le_trans hle (not_lt.mp h)
          · exact hall j hj2

/-- Over an ascending candidate list the Python `min` fold returns the
smallest element among the minimisers (first match wins on ties). -/
lemma pymin_first (f : ℚ → ℚ) : ∀ (l : List ℚ) (init : ℚ),
    (init :: l).Pairwise (· ≤ ·) →
    ∀ j, (j = init ∨ j ∈ l) → f j = f (pymin f init l) →
      pymin f init l ≤ j := by
  intro l
  induction l with
  | nil =>
      intro init _ j hj _
      rcases hj with rfl | h
      · exact le_refl _
      · simp at h
  | cons a as ih =>
      intro init hp j hj htie
      have hstep : pymin f init (a :: as) =
          pymin f (if f a < f init then a else init) as := rfl
      have hp1 := List.pairwise_cons.mp hp
      by_cases h : f a < f init
      · rw [hstep, if_pos h] at htie ⊢
        have hpa : (a :: as).Pairwise (· ≤ ·) := hp1.2
        rcases hj with heq | hj2
        · exfalso
          subst heq
          have hmin := (pymin_le f as a).2.1
          rw [← htie] at hmin
          exact absurd (lt_of_le_of_lt hmin h) (lt_irrefl _)
        · rcases List.mem_cons.mp hj2 with heq | hj3
          · subst heq
            exact ih j hpa j (Or.inl rfl) htie
          · exact ih a hpa j (Or.inr hj3) htie
      · rw [hstep, if_neg h] at htie ⊢
        have hpi : (init :: as).Pairwise (· ≤ ·) := by
          rw [List.pairwise_cons]
          exact ⟨fun b hb => hp1.1 b (List.mem_cons_of_mem _ hb),
            (List.pairwise_cons.mp hp1.2).2⟩
        rcases hj with heq | hj2
        · subst heq
          exact ih j hpi j (Or.inl rfl) htie
        · rcases List.mem_cons.mp hj2 with heq | hj3
          · subst heq
            have hminle := (pymin_le f as init).2.1
            have hinita : f init ≤ f j := not_lt.mp h
            have hfi : f j = f (pymin f init as) := htie
            have hfi2 : f init = f (pymin f init as) := by
              apply le_antisymm
              · rw [← hfi]
                exact hinita
              · exact hminle
            have h1 : pymin f init as ≤ init :=
              ih init hpi init (Or.inl rfl) hfi2
            have h2 : init ≤ j := hp1.1 j (List.mem_cons_self j as)
            exact le_trans h1 h2
          · exact ih init hpi j (Or.inr hj3) htie

/-- On the scenario rows the weighted ordinal sum evaluates to 9.3. -/
lemma rowsC3_sum : rating_chiffre_sum rowsC3 = 93/10 := by
  have ha : (ratingsRow rawC3a).spAjusted = "A" := by decide
  have hb : (ratingsRow rawC3b).spAjusted = "BBB" := by decide
  have hc : (ratingsRow rawC3c).spAjusted = "B" := by decide
  have hna : (ratingsRow rawC3a).ratingChiffre = some 6 := by
    rw [ratingsRow_ratingChiffre, ha]; simp [sp_rating_to_number, List.lookup]
  have hnb : (ratingsRow rawC3b).ratingChiffre = some 9 := by
    rw [ratingsRow_ratingChiffre, hb]; simp [sp_rating_to_number, List.lookup]
  have hnc : (ratingsRow rawC3c).ratingChiffre = some 15 := by
    rw [ratingsRow_ratingChiffre, hc]; simp [sp_rating_to_number, List.lookup]
  have hta : (ratingsRow rawC3a).securityType = "Corporate Bonds" := rfl
  have htb : (ratingsRow rawC3b).securityType = "Corporate Bonds" := rfl
  have htc : (ratingsRow rawC3c).securityType = "Corporate Bonds" := rfl
  have hma : (ratingsRow rawC3a).marketValuePct = some 40 := rfl
  have hmb : (ratingsRow rawC3b).marketValuePct = some 35 := rfl
  have hmc : (ratingsRow rawC3c).marketValuePct = some 25 := rfl
  rw [rowsC3, calculate_ratings]
  simp only [List.map_cons, List.map_nil]
  rw [rating_chiffre_sum]
  simp only [List.filter, hta, htb, htc, bond_types]
  norm_num [contrib_rating_chiffre, hna, hnb, hnc, hma, hmb, hmc,
    odiv, omul, ofill]

/-- C3, counterexample: on the claim's own three-row scenario the
market-value-weighted ordinal is 9.3, not the claimed 9.15. -/
theorem C3_counterexample :
    rating_chiffre_sum rowsC3 = 93/10 ∧ (93/10 : ℚ) ≠ 183/20 :=
  ⟨rowsC3_sum, by norm_num⟩

/-- C3 (amended): the fund rating snaps the weighted ordinal sum to the
nearest rank 1..22, ties resolved by the first match in ascending order,
and on the scenario rows [40, 35, 25] × [6, 9, 15] the weighted ordinal
is 9.3 (not 9.15), which snaps to rank 9, i.e. "BBB". -/
theorem C3_rollup (rows : List Row) :
    (closest_number (rating_chiffre_sum rows) ∈ ratingNumbers) ∧
    (∀ j ∈ ratingNumbers,
      |closest_number (rating_chiffre_sum rows) - rating_chiffre_sum rows| ≤
        |j - rating_chiffre_sum rows|) ∧
    (∀ j ∈ ratingNumbers,
      |j - rating_chiffre_sum rows| =
        |closest_number (rating_chiffre_sum rows) - rating_chiffre_sum rows| →
      closest_number (rating_chiffre_sum rows) ≤ j) ∧
    (closest_number (93/10) = 9 ∧ rating_final rowsC3 = "BBB") := by
  have habs : ∀ a : ℚ, |a| = if a < 0 then -a else a := by
    intro a
    by_cases h : a < 0
    · rw [if_pos h]; exact abs_of_neg h
    · rw [if_neg h]; exact abs_of_nonneg (not_lt.mp h)
  have hnums : ratingNumbers =
      [1, 2, 3, 4, 5, 6, 7, 8, 9, 10, 11, 12, 13, 14, 15, 16, 17, 18, 19,
       20, 21, 22] := by
    norm_num [ratingNumbers, sp_rating_to_number]
  have hclosest : closest_number (93/10) = 9 := by
    have he : closest_number (93/10) =
        pymin (fun j => |j - 93/10|) 1
          [2, 3, 4, 5, 6, 7, 8, 9, 10, 11, 12, 13, 14, 15, 16, 17, 18, 19,
           20, 21, 22] := rfl
    rw [he]
    simp only [pymin, List.foldl]
    norm_num [habs]
  set s := rating_chiffre_sum rows with hs
  have hcn : closest_number s =
      pymin (fun j => |j - s|) 1
        [2, 3, 4, 5, 6, 7, 8, 9, 10, 11, 12, 13, 14, 15, 16, 17, 18, 19,
         20, 21, 22] := rfl
  obtain ⟨hmem, hle, hall⟩ :=
    pymin_le (fun j => |j - s|)
      [2, 3, 4, 5, 6, 7, 8, 9, 10, 11, 12, 13, 14, 15, 16, 17, 18, 19,
       20, 21, 22] 1
  have hfirst :=
    pymin_first (fun j => |j - s|)
      [2, 3, 4, 5, 6, 7, 8, 9, 10, 11, 12, 13, 14, 15, 16, 17, 18, 19,
       20, 21, 22] 1 (by norm_num)
  refine ⟨?_, ?_, ?_, hclosest, ?_⟩
  · rw [hnums, hcn]
    rcases hmem with h | h
    · rw [h]; norm_num
    · exact List.mem_cons_of_mem _ h
  · intro j hj
    rw [hnums] at hj
    rw [hcn]
    rcases List.mem_cons.mp hj with heq | hmem2
    · rw [heq]
      exact hle
    · exact hall j hmem2
  · intro j hj htie
    rw [hnums] at hj
    rw [hcn] at htie ⊢
    exact hfirst j (List.mem_cons.mp hj) htie
  · unfold rating_final
    rw [rowsC3_sum, hclosest]
    norm_num [number_to_sp_rating, sp_rating_to_number, List.find?]

/-- C3, witness: the snapped rank minimises the distance among the ranks
at the scenario table. -/
theorem C3_witness :
    |closest_number (rating_chiffre_sum rowsC3) - rating_chiffre_sum rowsC3| ≤
      |22 - rating_chiffre_sum rowsC3| :=
  (C3_rollup rowsC3).2.1 22 (by norm_num [ratingNumbers, sp_rating_to_number])

/-- Stable descending insertion permutes the extended list. -/
lemma insertDescBy_perm (key : α → ℚ) (x : α) :
    ∀ l : List α, (insertDescBy key x l).Perm (x :: l)
  | [] => List.Perm.refl _
  | y :: ys => by
      unfold insertDescBy
      split_ifs with h
      · exact List.Perm.refl _
      · exact List.Perm.trans
          (List.Perm.cons y (insertDescBy_perm key x ys))
          (List.Perm.swap x y ys)

/-- Stable descending sort permutes its input. -/
lemma sortDescBy_perm (key : α → ℚ) :
    ∀ l : List α, (sortDescBy key l).Perm l
  | [] => List.Perm.refl _
  | x :: xs =>
      List.Perm.trans (insertDescBy_perm key x (sortDescBy key xs))
        (List.Perm.cons x (sortDescBy_perm key xs))

/-- Inserting into a descending-ordered list keeps it descending. -/
lemma insertDescBy_pairwise (key : α → ℚ) (x : α) :
    ∀ {l : List α}, l.Pairwise (fun a b => key b ≤ key a) →
      (insertDescBy key x l).Pairwise (fun a b => key b ≤ key a) := by
  intro l
  induction l with
  | nil => intro _; simp [insertDescBy]
  | cons y ys ih =>
      intro h
      have h1 := List.pairwise_cons.mp h
      unfold insertDescBy
      split_ifs with hlt
      · refine List.pairwise_cons.mpr ⟨?_, h⟩
        intro b hb
        rcases List.mem_cons.mp hb with heq | hb2
        · rw [heq]; exact le_of_lt hlt
        · exact le_trans (h1.1 b hb2) (le_of_lt hlt)
      · refine List.pairwise_cons.mpr ⟨?_, ih h1.2⟩
        intro b hb
        have hb2 := (insertDescBy_perm key x ys).mem_iff.mp hb
        rcases List.mem_cons.mp hb2 with heq | hb3
        · rw [heq]; exact not_lt.mp hlt
        · exact h1.1 b hb3

/-- The descending sort is descending. -/
lemma sortDescBy_pairwise (key : α → ℚ) :
    ∀ l : List α, (sortDescBy key l).Pairwise (fun a b => key b ≤ key a)
  | [] => List.Pairwise.nil
  | x :: xs => insertDescBy_pairwise key x (sortDescBy_pairwise key xs)

/-- In a pairwise-ordered list every taken element relates to every
dropped element. -/
lemma pairwise_take_drop {R : α → α → Prop} {l : List α} (n : Nat)
    (h : l.Pairwise R) :
    ∀ a ∈ l.take n, ∀ b ∈ l.drop n, R a b := by
  have h2 : (l.take n ++ l.drop n).Pairwise R := by
    rw [List.take_append_drop]; exact h
  exact (List.pairwise_append.mp h2).2.2

/-- C5: each top-N table is the selected rows followed by a TOTAL row
whose value sums exactly the selected rows; the selection has at most N
rows, every selected key is at least every unselected key, and selection
plus rest is a permutation of the pool; on a concrete 3-row table with
N = 2 the TOTAL is 8 while the full dataset sums to 10. -/
theorem C5_topn_total (n : Nat) (rows : List Row) :
    ((get_top_holdings n rows).getLast? = some ⟨"TOTAL", "",
      ((top_holdings_selection n rows).map
        (fun r => r.marketValuePct.getD 0)).sum⟩) ∧
    ((get_top_holdings n rows).dropLast = (top_holdings_selection n rows).map
      (fun r => (⟨r.longName, r.shortName, r.marketValuePct.getD 0⟩ :
        HoldingRow))) ∧
    ((get_top_contributors n rows).getLast? = some ⟨"TOTAL", "",
      ((top_contributors_selection n rows).map
        (fun r => r.contribSensiEquity)).sum⟩) ∧
    ((get_top_contributors n rows).dropLast =
      (top_contributors_selection n rows).map
        (fun r => (⟨r.longName, r.shortName, r.contribSensiEquity⟩ :
          HoldingRow))) ∧
    ((top_holdings_selection n rows).length ≤ n) ∧
    (∀ a ∈ top_holdings_selection n rows,
     ∀ b ∈ (sortDescBy (fun r => r.marketValuePct.getD 0)
        (holdings_pool rows)).drop n,
       b.marketValuePct.getD 0 ≤ a.marketValuePct.getD 0) ∧
    ((top_holdings_selection n rows ++
        (sortDescBy (fun r => r.marketValuePct.getD 0)
          (holdings_pool rows)).drop n).Perm (holdings_pool rows)) ∧
    ((get_top_holdings 2 rowsC5).getLast? = some ⟨"TOTAL", "", 8⟩ ∧
     (rowsC5.map (fun r => r.marketValuePct.getD 0)).sum = 10) := by
  refine ⟨?_, ?_, ?_, ?_, ?_, ?_, ?_, ?_⟩
  · unfold get_top_holdings
    rw [List.getLast?_concat, List.map_map]
    rfl
  · unfold get_top_holdings
    rw [List.dropLast_concat]
  · unfold get_top_contributors
    rw [List.getLast?_concat, List.map_map]
    rfl
  · unfold get_top_contributors
    rw [List.dropLast_concat]
  · unfold top_holdings_selection nlargestBy
    rw [List.length_take]
    exact min_le_left _ _
  · intro a ha b hb
    unfold top_holdings_selection nlargestBy at ha
    exact pairwise_take_drop n
      (sortDescBy_pairwise (fun r => r.marketValuePct.getD 0)
        (holdings_pool rows)) a ha b hb
  · unfold top_holdings_selection nlargestBy
    rw [List.take_append_drop]
    exact sortDescBy_perm _ _
  · constructor
    · norm_num [get_top_holdings, top_holdings_selection, nlargestBy,
        holdings_pool, rowsC5, rowC5a, rowC5b, rowC5c, top_types,
        sortDescBy, insertDescBy, List.getLast?_concat]
    · norm_num [rowsC5, rowC5a, rowC5b, rowC5c]

/-- C5, witness: on the concrete three-row table with N = 2, the dropped
row's market value does not exceed a selected row's. -/
theorem C5_witness :
    rowC5c.marketValuePct.getD 0 ≤ rowC5a.marketValuePct.getD 0 :=
  (C5_topn_total 2 rowsC5).2.2.2.2.2.1 rowC5a (by decide) rowC5c (by decide)

/-- Sum of a mapped filter as a sum of guarded terms. -/
lemma sum_map_filter (p : α → Bool) (f : α → ℚ) :
    ∀ l : List α,
      ((l.filter p).map f).sum =
        (l.map (fun x => if p x then f x else 0)).sum := by
  intro l
  induction l with
  | nil => rfl
  | cons a as ih =>
      by_cases h : p a
      · simp [List.filter_cons, h, ih]
      · simp [List.filter_cons, h, ih]

/-- Sums of mapped functions add pointwise. -/
lemma sum_map_add (f g : α → ℚ) :
    ∀ l : List α,
      (l.map (fun x => f x + g x)).sum = (l.map f).sum + (l.map g).sum := by
  intro l
  induction l with
  | nil => simp
  | cons a as ih => simp [ih]; ring

/-- Exchanging the order of summation between group keys and rows. -/
lemma sum_groups (key : Row → Option String) (val : Row → ℚ)
    (rows : List Row) :
    ∀ ks : List String,
      (ks.map (fun k =>
          ((rows.filter (fun r => decide (key r = some k))).map
            val).sum)).sum =
        (rows.map (fun r =>
          (((ks.filter (fun k => decide (key r = some k))).length : ℚ) *
            val r))).sum := by
  intro ks
  induction ks with
  | nil => simp
  | cons k ks ih =>
      simp only [List.map_cons, List.sum_cons]
      rw [sum_map_filter, ih, ← sum_map_add]
      apply congrArg List.sum
      apply List.map_congr_left
      intro r _
      by_cases h : key r = some k
      · simp [h, List.filter_cons]
        try push_cast
        try ring
      · simp [h, List.filter_cons]

/-- In a duplicate-free list a present key is hit exactly once. -/
lemma length_filter_nodup {v : String} :
    ∀ {l : List String}, l.Nodup → v ∈ l →
      (l.filter (fun k => decide (v = k))).length = 1 := by
  intro l
  induction l with
  | nil => intro _ hv; simp at hv
  | cons a as ih =>
      intro hn hv
      have hn2 := List.nodup_cons.mp hn
      rw [List.filter_cons]
      rcases List.mem_cons.mp hv with heq | hmem
      · subst heq
        rw [if_pos (by simp)]
        have hnil : as.filter (fun k => decide (v = k)) = [] := by
          rw [List.filter_eq_nil_iff]
          intro b hb
          simp only [decide_eq_true_eq]
          intro heq2
          exact hn2.1 (heq2 ▸ hb)
        rw [hnil]
        rfl
      · rw [if_neg (by simp; exact fun heq => hn2.1 (heq ▸ hmem))]
        exact ih hn2.2 hmem

/-- Conservation of mass for the groupby-sum: the groups sum to the total
of the rows whose key is present (rows with a missing key are dropped). -/
lemma groupbySum_sum (key : Row → Option String) (val : Row → ℚ)
    (rows : List Row) :
    ((groupbySum key val rows).map (fun p => p.2)).sum =
      ((rows.filter (fun r => (key r).isSome)).map val).sum := by
  unfold groupbySum groupKeys
  rw [List.map_map]
  show ((rows.filterMap key).dedup.map (fun k =>
      ((rows.filter (fun r => decide (key r = some k))).map val).sum)).sum = _
  rw [sum_groups, sum_map_filter]
  apply congrArg List.sum
  apply List.map_congr_left
  intro r hr
  cases hk : key r with
  | none => simp [hk]
  | some v =>
      have hv : v ∈ (rows.filterMap key).dedup :=
        List.mem_dedup.mpr (List.mem_filterMap.mpr ⟨r, hr, hk⟩)
      have hn := List.nodup_dedup (rows.filterMap key)
      have hcong : ∀ k ∈ (rows.filterMap key).dedup,
          (decide ((some v : Option String) = some k)) =
            (decide (v = k)) := by
        intro k _
        simp
      rw [List.filter_congr hcong, length_filter_nodup hn hv]
      simp

/-- C6, counterexample: with one mapped row ("FR" → Europe, weight 1) and
one unmapped row ("XX", weight 1), the region table sums to 1 while its
source subset sums to 2 — the unmapped row is silently dropped. -/
theorem C6_counterexample :
    aggregate_by_region rowsC6 = [("Europe", 1)] ∧
    (rowsC6.map (fun r => r.contribSensiEquity)).sum = 2 ∧
    (1 : ℚ) ≠ 2 := by
  have ha : (regionsRow rowC6a).region = some "Europe" := by decide
  have hb : (regionsRow rowC6b).region = none := by decide
  have hca : (regionsRow rowC6a).contribSensiEquity = 1 := by decide
  have hcb : (regionsRow rowC6b).contribSensiEquity = 1 := by decide
  refine ⟨?_, ?_, by norm_num⟩
  · simp [aggregate_by_region, groupbySum, groupKeys, sortDescBy,
      insertDescBy, rowsC6, calculate_regions, List.filterMap,
      List.filter_cons, ha, hb, hca, hcb]
  · simp [rowsC6, calculate_regions, hca, hcb]
    norm_num

/-- C6 (amended): for every aggregation the pipeline produces via
groupby-sum, the groups sum to the total over the rows of the source
subset whose group key is non-missing; rows with a missing (unmapped) key
are dropped from the aggregation, so conservation over the full subset
holds exactly when no key is missing. -/
theorem C6_conservation (key : Row → Option String) (val : Row → ℚ)
    (rows : List Row) :
    ((groupbySum key val rows).map (fun p => p.2)).sum =
      ((rows.filter (fun r => (key r).isSome)).map val).sum ∧
    ((aggregate_by_region rows).map (fun p => p.2)).sum =
      ((rows.filter (fun r => r.region.isSome)).map
        (fun r => r.contribSensiEquity)).sum := by
  constructor
  · exact groupbySum_sum key val rows
  · have hperm :=
      (sortDescBy_perm (fun p : String × ℚ => p.2)
        (groupbySum (fun r => r.region) (fun r => r.contribSensiEquity)
          rows)).map (fun p : String × ℚ => p.2)
    rw [aggregate_by_region, hperm.sum_eq]
    exact groupbySum_sum _ _ rows

/-- C8, counterexample: when the batch request raises, the fetch returns
the empty mapping and the enrichment still completes, producing a table
with null report fields — the run does not abort and results are
produced, contrary to the claimed fatal all-or-nothing behaviour. -/
theorem C8_counterexample :
    fetch_batch_data true ["AAPL US Equity"] report_fields
      (.error "connection lost") = [] ∧
    enrich_with_bloomberg_data [rowC8] true (.error "connection lost") ≠
      [] ∧
    (enrich_with_bloomberg_data [rowC8] true
        (.error "connection lost")).map
      (fun r => (r.expectedReportDt, r.expectedReportTime)) =
      [(none, none)] := by
  refine ⟨by decide, by decide, by decide⟩

/-- C8 (amended): a failing batch reference-data call is caught inside
the fetcher, which logs and returns the empty mapping; enrichment then
proceeds over every row (nulling the fetched fields) instead of aborting
the run. Only session initialisation failures abort. -/
theorem C8_degraded (serviceUp : Bool) (tickers fields : List String)
    (e : String) (rows : List Row) :
    fetch_batch_data serviceUp tickers fields (.error e) = [] ∧
    (enrich_with_bloomberg_data rows serviceUp (.error e)).length =
      rows.length := by
  constructor
  · unfold fetch_batch_data
    split_ifs <;> rfl
  · simp only [enrich_with_bloomberg_data]
    split_ifs <;> simp

lemma Heap.get_write_ne (h : Heap) (i j : Nat) (t : List Row)
    (hne : j ≠ i) : (h.write j t).get i = h.get i := by
  unfold Heap.get Heap.write
  rw [List.getD_eq_getElem?_getD, List.getD_eq_getElem?_getD,
    List.getElem?_set_ne hne]

lemma Heap.get_write_self (h : Heap) (j : Nat) (t : List Row)
    (hj : j < h.tables.length) : (h.write j t).get j = t := by
  unfold Heap.get Heap.write
  rw [List.getD_eq_getElem?_getD]
  simp [List.getElem?_set, hj]

lemma Heap.get_alloc_old (h : Heap) (t : List Row) (i : Nat)
    (hi : i < h.tables.length) : (h.alloc t).1.get i = h.get i := by
  unfold Heap.get Heap.alloc
  rw [List.getD_eq_getElem?_getD, List.getD_eq_getElem?_getD,
    List.getElem?_append_left hi]

lemma Heap.get_alloc_new (h : Heap) (t : List Row) :
    (h.alloc t).1.get (h.alloc t).2 = t := by
  unfold Heap.get Heap.alloc
  rw [List.getD_eq_getElem?_getD]
  simp

/-- Invariants of the in-place helper sequence: the reference is
unchanged, the store size is unchanged, unrelated references are
untouched, and the referenced table accumulates the helpers. -/
lemma foldl_writeStep (steps : List (List Row → List Row)) :
    ∀ p : Heap × Nat, p.2 < p.1.tables.length →
      ((steps.foldl (fun q f => writeStep f q) p).2 = p.2) ∧
      ((steps.foldl (fun q f => writeStep f q) p).1.tables.length =
        p.1.tables.length) ∧
      (∀ i, p.2 ≠ i →
        (steps.foldl (fun q f => writeStep f q) p).1.get i = p.1.get i) ∧
      ((steps.foldl (fun q f => writeStep f q) p).1.get p.2 =
        steps.foldl (fun t f => f t) (p.1.get p.2)) := by
  induction steps with
  | nil => exact fun p _ => ⟨rfl, rfl, fun i _ => rfl, rfl⟩
  | cons f fs ih =>
      intro p hp
      have hlen : (writeStep f p).1.tables.length = p.1.tables.length := by
        simp [writeStep, Heap.write]
      have hp2 : (writeStep f p).2 = p.2 := rfl
      have hlt : (writeStep f p).2 < (writeStep f p).1.tables.length := by
        rw [hp2, hlen]; exact hp
      obtain ⟨hs, hl, hn, hg⟩ := ih (writeStep f p) hlt
      refine ⟨by simp [List.foldl_cons, hs, hp2], ?_, ?_, ?_⟩
      · rw [List.foldl_cons, hl, hlen]
      · intro i hi
        rw [List.foldl_cons, hn i (by rw [hp2]; exact hi)]
        exact Heap.get_write_ne p.1 i p.2 _ hi
      · rw [List.foldl_cons]
        have := hg
        rw [hp2] at this
        rw [this]
        rw [show (writeStep f p).1.get p.2 = f (p.1.get p.2) from
          Heap.get_write_self p.1 p.2 _ hp]
        rfl

/-- C10: `calculate_all_metrics` copies its input before any
transformation: every pre-existing table in the store — the caller's
DataFrame included — is unchanged, and the returned reference holds the
enriched result of the metric pipeline applied to (a copy of) the input
table. -/
theorem C10_no_mutation (h : Heap) (df i : Nat)
    (hi : i < h.tables.length) :
    (calculate_all_metrics h df).1.get i = h.get i ∧
    (calculate_all_metrics h df).1.get (calculate_all_metrics h df).2 =
      metricsPipeline (h.get df) := by
  have halloc2 : (h.alloc (copyTable (h.get df))).2 = h.tables.length := rfl
  have hlen : (h.alloc (copyTable (h.get df))).1.tables.length =
      h.tables.length + 1 := by simp [Heap.alloc]
  have hlt : (h.alloc (copyTable (h.get df))).2 <
      (h.alloc (copyTable (h.get df))).1.tables.length := by
    rw [halloc2, hlen]; omega
  obtain ⟨hs, hl, hn, hg⟩ := foldl_writeStep metricsSteps _ hlt
  constructor
  · have hne : (h.alloc (copyTable (h.get df))).2 ≠ i := by
      rw [halloc2]; omega
    rw [show calculate_all_metrics h df =
        metricsSteps.foldl (fun q f => writeStep f q)
          (h.alloc (copyTable (h.get df))) from rfl]
    rw [hn i hne]
    exact Heap.get_alloc_old h _ i hi
  · rw [show calculate_all_metrics h df =
        metricsSteps.foldl (fun q f => writeStep f q)
          (h.alloc (copyTable (h.get df))) from rfl]
    rw [hs, hg, Heap.get_alloc_new]
    rfl

/-- C10, witness: on a concrete one-table heap the caller's table is
untouched. -/
theorem C10_witness :
    (calculate_all_metrics heapC10 0).1.get 0 = heapC10.get 0 :=
  (C10_no_mutation heapC10 0 0 (by decide)).1

end Portfolio


